import Mathlib

/-!
Verification development for the repository layer of mcp-brain: a shallow
embedding of the task queue, knowledge store and template engine (each with a
file-based and a SQLite-based backend) together with theorems about the
properties the specification states for them.

Machine state (database rows, YAML files on disk, the filesystem tree) is
modelled as explicit functional state; every operation is a pure function of
that state, translated clause by clause from the Go source.  Timestamps are
naturals supplied by the caller, standing for the values `time.Now()` /
`CURRENT_TIMESTAMP` would produce; monotonicity of the clock is an explicit
hypothesis where a proof needs it.
-/

set_option autoImplicit false

namespace McpBrain

/-- Decidable equality of `Except` results, for evaluating concrete runs. -/
instance {ε α : Type} [DecidableEq ε] [DecidableEq α] : DecidableEq (Except ε α) := fun a b =>
  match a, b with
  | .ok x, .ok y =>
    if h : x = y then .isTrue (by rw [h]) else .isFalse (by intro hc; cases hc; exact h rfl)
  | .error x, .error y =>
    if h : x = y then .isTrue (by rw [h]) else .isFalse (by intro hc; cases hc; exact h rfl)
  | .ok _, .error _ => .isFalse (by intro hc; cases hc)
  | .error _, .ok _ => .isFalse (by intro hc; cases hc)

/-- Association-list lookup, modelling Go map indexing `m[k]` (first match). -/
def lookupA {α : Type} (l : List (String × α)) (k : String) : Option α :=
  match l.find? (fun p => p.1 = k) with
  | some p => some p.2
  | none => none

/-- Membership test for Go map indexing `_, ok := m[k]`. -/
def hasKeyA {α : Type} (l : List (String × α)) (k : String) : Bool :=
  (lookupA l k).isSome

/-! ## Task queue: data model

`contracts.Task` (pkg/contracts/task_repository.go) for the SQLite backend,
which carries a chat-session scope, and the scope-less task of the file
backend revision of the contract (`unnamed/part_008`). -/

/-- `contracts.Task`: id, chat session id, content, creation timestamp. -/
structure Task where
  id : Nat
  chatSessionID : String
  content : String
  createdAt : Nat
  deriving DecidableEq, Repr

/-- The scope-less task used by the file-backed task repository. -/
structure GlobalTask where
  id : Nat
  content : String
  createdAt : Nat
  deriving DecidableEq, Repr

/-- The `tasks` table of `task.SqliteRepository`: rows in insertion order,
plus the AUTOINCREMENT counter (next id to assign). -/
structure TaskDB where
  rows : List Task
  nextId : Nat
  deriving DecidableEq, Repr

/-- `task.TasksFile` of the file-backed repository (tasks.yaml): the task
list plus the persisted next-identity counter. -/
structure TasksFile where
  tasks : List GlobalTask
  nextId : Nat
  deriving DecidableEq, Repr

/-! ## Task queue: SQLite backend (pkg/repositories/task/sqlite_repository.go) -/

/-- The rows inserted by one `AddTasks` batch: each content is paired with the
`CURRENT_TIMESTAMP` its INSERT statement observed; ids ascend from `i`. -/
def mkRows (s : String) : List (String × Nat) → Nat → List Task
  | [], _ => []
  | (c, t) :: rest, i => ⟨i, s, c, t⟩ :: mkRows s rest (i + 1)

/-- `SqliteRepository.AddTasks`: inserts all contents in one transaction in
input order, with ascending AUTOINCREMENT ids, and returns the created rows.
An empty input yields an empty result. -/
def sqliteAddTasks (db : TaskDB) (s : String) (cts : List (String × Nat)) :
    TaskDB × List Task :=
  let new := mkRows s cts db.nextId
  (⟨db.rows ++ new, db.nextId + cts.length⟩, new)

/-- Lexicographic comparison used by `ORDER BY created_at ASC, id ASC`. -/
def taskBefore (b a : Task) : Bool :=
  b.createdAt < a.createdAt || (b.createdAt = a.createdAt && b.id < a.id)

/-- The row `SELECT ... WHERE chat_session_id = ? ORDER BY created_at ASC,
id ASC LIMIT 1` returns, if any. -/
def selectOldest (rows : List Task) (s : String) : Option Task :=
  match rows.filter (fun r => r.chatSessionID = s) with
  | [] => none
  | r :: rs => some (rs.foldl (fun a b => if taskBefore b a then b else a) r)

/-- `SqliteRepository.GetTask`: select the oldest pending task of the session
and DELETE it in the same transaction.  An empty queue for the session is
reported as an error, exactly as the Go code does with `sql.ErrNoRows`. -/
def sqliteGetTask (db : TaskDB) (s : String) : Except String (Task × TaskDB) :=
  match selectOldest db.rows s with
  | none => .error ("no pending tasks found for chat session: " ++ s)
  | some t => .ok (t, ⟨db.rows.filter (fun r => ¬ r.id = t.id), db.nextId⟩)

/-- `n` successive `GetTask` calls, collecting the delivered tasks; stops at
the first error outcome. -/
def sqliteGetTasksN (db : TaskDB) (s : String) : Nat → List Task × TaskDB
  | 0 => ([], db)
  | n + 1 =>
    match sqliteGetTask db s with
    | .error _ => ([], db)
    | .ok (t, db') =>
      ((t :: (sqliteGetTasksN db' s n).1, (sqliteGetTasksN db' s n).2))

/-! ## Task queue: file backend (unnamed/part_013, FileRepository) -/

/-- `FileRepository.AddTasks`: appends tasks with ids `NextID, NextID+1, ...`;
all tasks of one call share the single `time.Now()` instant `now`. -/
def fileAddTasks (f : TasksFile) (contents : List String) (now : Nat) :
    TasksFile × List GlobalTask :=
  let new := contents.enum.map (fun p => GlobalTask.mk (f.nextId + p.1) p.2 now)
  (⟨f.tasks ++ new, f.nextId + contents.length⟩, new)

/-- `FileRepository.GetTask`: pops the first task (FIFO); an empty list is the
explicit empty outcome `(nil, nil)`, not an error. -/
def fileGetTask (f : TasksFile) : Option GlobalTask × TasksFile :=
  match f.tasks with
  | [] => (none, f)
  | t :: rest => (some t, ⟨rest, f.nextId⟩)

/-- `n` successive file-backend `GetTask` calls, collecting delivered tasks. -/
def fileGetTasksN (f : TasksFile) : Nat → List GlobalTask × TasksFile
  | 0 => ([], f)
  | n + 1 =>
    match fileGetTask f with
    | (none, f') => ([], f')
    | (some t, f') =>
      ((t :: (fileGetTasksN f' n).1, (fileGetTasksN f' n).2))

/-! ## Knowledge store: path handling

`filepath.ToSlash` is the identity on the target platform (separator `/`), so
path normalization reduces to appending the canonical `.md` suffix.
`filepath.Join(base, p)` is `Clean(base + "/" + p)`; `Clean` is the lexical
processing of `.` and `..` segments, which for an absolute base discards `..`
once the root is reached. -/

/-- `strings.HasSuffix(p, ".md")`. -/
def endsWithMD (p : String) : Bool :=
  match p.data.reverse with
  | d :: m :: dot :: _ => d = 'd' && m = 'm' && dot = '.'
  | _ => false

/-- The normalization in `knowledge.FileRepository.Write/Read/Delete`:
forward slashes (identity here) plus `.md` appended when absent. -/
def normalizePath (p : String) : String :=
  if endsWithMD p then p else p ++ ".md"

/-- Accumulator-based splitting of a character list at slashes. -/
def splitSlashAux : List Char → List Char → List String
  | [], acc => [String.mk acc.reverse]
  | c :: cs, acc =>
    if c = '/' then String.mk acc.reverse :: splitSlashAux cs []
    else splitSlashAux cs (c :: acc)

/-- Split a slash-separated path into segments (`strings.Split(p, "/")`). -/
def splitSlash (p : String) : List String :=
  splitSlashAux p.data []

/-- Join segments with slashes. -/
def joinSlash (segs : List String) : String :=
  String.intercalate "/" segs

/-- `strings.HasPrefix(b, a)` / SQL `b LIKE a || '%'` on literal prefixes. -/
def strStartsWith (a b : String) : Bool :=
  a.data.isPrefixOf b.data

/-- One step of Go `filepath.Clean` on an absolute path (segments after the
root): empty and `.` segments vanish, `..` pops the previous segment and is
discarded at the root. -/
def cleanStep (acc : List String) (s : String) : List String :=
  if s = "" || s = "." then acc
  else if s = ".." then acc.dropLast
  else acc ++ [s]

/-- Go `filepath.Clean` on an absolute path given as segments. -/
def cleanAbs (segs : List String) : List String :=
  segs.foldl cleanStep []

/-- Go `filepath.Clean` on a relative path: as `cleanAbs`, but leading `..`
segments are preserved. -/
def cleanRel (segs : List String) : List String :=
  segs.foldl
    (fun acc s =>
      if s = "" || s = "." then acc
      else if s = ".." then
        if acc = [] || acc.getLast? = some ".." then acc ++ [".."] else acc.dropLast
      else acc ++ [s])
    []

/-- `filepath.Join(baseDir, normalizedPath)` of the file-backed knowledge
store, as absolute segments: base segments (already clean) followed by the
segments of the normalized input, lexically cleaned. -/
def resolvePath (base : List String) (p : String) : List String :=
  cleanAbs (base ++ splitSlash (normalizePath p))

/-- Whether an absolute segment path lies at or below the root `base`. -/
def isUnderRoot (base q : List String) : Bool :=
  base.isPrefixOf q

/-! ## Knowledge store: file backend
(knowledge.FileRepository, concatenated in file_repository_test.go) -/

/-- The filesystem under the store root: file paths (absolute segments)
mapped to contents, plus the set of directories. -/
structure FileFS where
  files : List (List String × String)
  dirs : List (List String)
  deriving DecidableEq, Repr

/-- Lookup in a path-keyed association list. -/
def lookupP {α : Type} (l : List (List String × α)) (k : List String) : Option α :=
  match l.find? (fun e => e.1 = k) with
  | some e => some e.2
  | none => none

/-- All non-empty prefixes of a segment path (the directories `MkdirAll`
creates). -/
def prefixesOf (segs : List String) : List (List String) :=
  (List.range segs.length).map (fun k => segs.take (k + 1))

/-- `FileRepository.Write`: normalize, join to the root, `MkdirAll` the parent
(fails when a prefix of the parent already exists as a file), then write the
file (fails when the target is an existing directory), overwriting any
previous content. -/
def fileKWrite (base : List String) (fs : FileFS) (p c : String) :
    Except String FileFS :=
  let full := resolvePath base p
  let parent := full.dropLast
  if (prefixesOf parent).any (fun q => (lookupP fs.files q).isSome) then
    .error "failed to create parent directories"
  else if fs.dirs.contains full then
    .error "failed to write file"
  else
    .ok ⟨fs.files.filter (fun e => ¬ e.1 = full) ++ [(full, c)],
      (prefixesOf parent).foldl
        (fun ds q => if ds.contains q then ds else ds ++ [q]) fs.dirs⟩

/-- `FileRepository.Read`: same normalization and join, then `os.ReadFile`. -/
def fileKRead (base : List String) (fs : FileFS) (p : String) :
    Except String String :=
  let full := resolvePath base p
  match lookupP fs.files full with
  | some c => .ok c
  | none =>
    if fs.dirs.contains full then .error "failed to read file"
    else .error ("knowledge file not found: " ++ p)

/-- Whether a directory path has any entry strictly beneath it. -/
def hasChild (fs : FileFS) (d : List String) : Bool :=
  fs.files.any (fun e => d.isPrefixOf e.1 && ¬ e.1 = d) ||
    fs.dirs.any (fun q => d.isPrefixOf q && ¬ q = d)

/-- `FileRepository.removeEmptyParentDirs`: best-effort upward pruning of
empty directories, stopping at the store root or at the first non-empty or
non-directory entry.  The fuel is the depth of the starting directory. -/
def pruneFrom (base : List String) : Nat → FileFS → List String → FileFS
  | 0, fs, _ => fs
  | fuel + 1, fs, d =>
    if d = base || d = [] then fs
    else if ¬ fs.dirs.contains d then fs
    else if hasChild fs d then fs
    else pruneFrom base fuel ⟨fs.files, fs.dirs.filter (fun q => ¬ q = d)⟩ d.dropLast

/-- `FileRepository.Delete`: normalize (so a directory named without `.md`
can never be targeted), `os.Remove` the resolved path -- a file is removed, a
non-empty directory fails, a missing path is NotFound -- then prune empty
parents. -/
def fileKDelete (base : List String) (fs : FileFS) (p : String) :
    Except String FileFS :=
  let full := resolvePath base p
  if (lookupP fs.files full).isSome then
    .ok (pruneFrom base full.length
      ⟨fs.files.filter (fun e => ¬ e.1 = full), fs.dirs⟩ full.dropLast)
  else if fs.dirs.contains full then
    if hasChild fs full then .error "failed to delete file"
    else .ok (pruneFrom base full.length
      ⟨fs.files, fs.dirs.filter (fun q => ¬ q = full)⟩ full.dropLast)
  else .error ("knowledge file not found: " ++ p)

/-! ## Knowledge store: SQLite backend
(pkg/repositories/knowledge/sqlite_repository.go) -/

/-- A row of the `knowledge` table. -/
structure KRow where
  project : String
  path : String
  content : String
  isDirectory : Bool
  deriving DecidableEq, Repr

/-- The `knowledge` table (UNIQUE(project, path)), rows in insertion order. -/
structure KDB where
  rows : List KRow
  deriving DecidableEq, Repr

/-- `SELECT ... WHERE project = ? AND path = ?` (any directory flag). -/
def kFind (db : KDB) (proj p : String) : Option KRow :=
  db.rows.find? (fun r => r.project = proj && r.path = p)

/-- Go `filepath.Dir`: the cleaned prefix before the final slash, `"."` when
there is none. -/
def dirOf (p : String) : String :=
  let parts := splitSlash p
  if parts.length ≤ 1 then "."
  else
    let cleaned := cleanRel parts.dropLast
    if cleaned = [] then "." else joinSlash cleaned

/-- `filepath.Join(currentPath, part)` as used when accumulating parent
directory paths. -/
def joinRel (a b : String) : String :=
  if a = "" then b else joinSlash (cleanRel (splitSlash a ++ splitSlash b))

/-- The successive `currentPath` values of
`SqliteRepository.ensureParentDirectories`. -/
def cumPaths (parts : List String) : List String :=
  (parts.foldl
    (fun st part =>
      if part = "" then st
      else
        let next := if st.2 = "" then part else joinRel st.2 part
        (st.1 ++ [next], next))
    (([] : List String), "")).1

/-- `SqliteRepository.ensureParentDirectories`: insert a directory row for
every ancestor of `p`, `ON CONFLICT DO NOTHING`. -/
def ensureParentDirectories (db : KDB) (proj p : String) : KDB :=
  let dir := dirOf p
  if dir = "." || dir = "/" then db
  else
    (cumPaths (splitSlash dir)).foldl
      (fun d q =>
        if (kFind d proj q).isSome then d
        else ⟨d.rows ++ [⟨proj, q, "", true⟩]⟩)
      db

/-- `SqliteRepository.Write`: ensure parents, then upsert the row; on
conflict only the content is replaced -- the directory flag keeps its stored
value.  No path normalization is applied. -/
def sqliteKWrite (db : KDB) (proj p c : String) : KDB :=
  let db1 := ensureParentDirectories db proj p
  match kFind db1 proj p with
  | some _ =>
    ⟨db1.rows.map
      (fun r => if r.project = proj && r.path = p then { r with content := c } else r)⟩
  | none => ⟨db1.rows ++ [⟨proj, p, c, false⟩]⟩

/-- `SqliteRepository.Read`: `SELECT content WHERE project = ? AND path = ?
AND is_directory = 0`; no rows is NotFound. -/
def sqliteKRead (db : KDB) (proj p : String) : Except String String :=
  match db.rows.find? (fun r => r.project = proj && r.path = p && r.isDirectory = false) with
  | some r => .ok r.content
  | none => .error ("file not found: " ++ p)

/-- `SqliteRepository.Delete`: NotFound unless a row exists at the exact
path; otherwise delete that row and every row whose path extends it with a
slash (`path = ? OR path LIKE ?||'/%'`). -/
def sqliteKDelete (db : KDB) (proj p : String) : Except String KDB :=
  if (kFind db proj p).isSome then
    .ok ⟨db.rows.filter
      (fun r => ¬ (r.project = proj && (r.path = p || strStartsWith (p ++ "/") r.path)))⟩
  else .error ("file not found: " ++ p)

/-! ## DirStructure (contracts.DirStructure) -/

/-- `contracts.DirStructure`: a recursive map from path segment to either a
file marker (`none`) or a nested directory. -/
inductive DirStructure where
  | mk : List (String × Option DirStructure) → DirStructure
  deriving Repr

/-- The entry list of a `DirStructure`. -/
def DirStructure.entries : DirStructure → List (String × Option DirStructure)
  | .mk es => es

/-- Go map assignment `m[k] = v`: replace the binding when present, append it
otherwise. -/
def setA {α : Type} (l : List (String × α)) (k : String) (v : α) :
    List (String × α) :=
  if hasKeyA l k then l.map (fun e => if e.1 = k then (k, v) else e)
  else l ++ [(k, v)]

/-- `insertPathIntoStructure`: walk the segments, creating intermediate
directories; the final segment becomes a file marker, or a directory that
must not clobber an already-populated subtree. -/
def insertPath (st : DirStructure) (parts : List String) (isDir : Bool) :
    DirStructure :=
  match parts with
  | [] => st
  | [part] =>
    if isDir then
      match lookupA st.entries part with
      | some (some _) => st
      | _ => .mk (setA st.entries part (some (.mk [])))
    else .mk (setA st.entries part none)
  | part :: rest =>
    let child :=
      match lookupA st.entries part with
      | some (some d) => d
      | _ => DirStructure.mk []
    .mk (setA st.entries part (some (insertPath child rest isDir)))

/-- Insertion into a list sorted by path (`ORDER BY path`). -/
def insertSorted (r : KRow) : List KRow → List KRow
  | [] => [r]
  | x :: xs => if r.path < x.path then r :: x :: xs else x :: insertSorted r xs

/-- Sort rows by path, modelling `ORDER BY path`. -/
def sortByPath (l : List KRow) : List KRow :=
  l.foldr insertSorted []

/-- `SqliteRepository.List`: walk the project rows ordered by path and insert
each into the tree. -/
def sqliteKList (db : KDB) (proj : String) : DirStructure :=
  (sortByPath (db.rows.filter (fun r => r.project = proj))).foldl
    (fun st r => insertPath st (splitSlash r.path) r.isDirectory) (.mk [])

/-! ## Template engine: data model (pkg/contracts/template_repository.go)

Go distinguishes a nil map/slice from an empty one; collection fields are
therefore `Option`s, with `none` standing for nil. -/

/-- `contracts.Parameter`. -/
structure Parameter where
  type : String
  description : String
  required : Bool
  dflt : String
  values : List String
  deriving DecidableEq, Repr

/-- `contracts.TaskTemplate`; parameters are an association list standing for
the Go map (iteration order fixed by the model). -/
structure TaskTemplate where
  id : String
  name : String
  description : String
  category : String
  parameters : Option (List (String × Parameter))
  tasks : Option (List String)
  estimatedTime : String
  prerequisites : Option (List String)
  createdAt : Nat
  updatedAt : Nat
  deriving DecidableEq, Repr

/-- The parameter list with Go nil-map iteration semantics (empty). -/
def TaskTemplate.paramsL (t : TaskTemplate) : List (String × Parameter) :=
  t.parameters.getD []

/-- The task list with Go nil-slice semantics (empty). -/
def TaskTemplate.tasksL (t : TaskTemplate) : List String :=
  t.tasks.getD []

/-- `contracts.TemplateInstance`. -/
structure TemplateInstance where
  templateID : String
  parameters : List (String × String)
  tasks : List String
  deriving DecidableEq, Repr

/-- The distinguishable error values the template layer produces (each
constructor corresponds to one `fmt.Errorf` site). -/
inductive Err where
  | notFound (id : String)
  | missingRequired (name : String)
  | notInEnum (name : String)
  | conflict (id : String)
  | msg (s : String)
  deriving DecidableEq, Repr

/-! ## Placeholder substitution (resolveTemplate, both backends)

The regex `\$\{([^}]+)\}` replaced via `ReplaceAllStringFunc`: each leftmost
non-overlapping span from a dollar-brace to the first closing brace, with a
non-empty name, is replaced by the resolved value when one exists and kept
verbatim otherwise. -/

/-- The opening brace character. -/
def lcurly : Char := Char.ofNat 123

/-- The closing brace character. -/
def rcurly : Char := Char.ofNat 125

/-- The scan underlying `resolveTemplate`; fuel bounds the recursion by the
input length (each step consumes at least one character). -/
def resolveScan (params : List (String × String)) : Nat → List Char → List Char
  | 0, cs => cs
  | _ + 1, [] => []
  | fuel + 1, c :: cs =>
    if c = '$' ∧ cs.head? = some lcurly then
      let afterBrace := cs.tail
      let name := afterBrace.takeWhile (fun d => ¬ d = rcurly)
      let rest := afterBrace.dropWhile (fun d => ¬ d = rcurly)
      match rest with
      | closer :: rest' =>
        if name = [] then
          c :: resolveScan params fuel cs
        else
          let matched := c :: lcurly :: (name ++ [closer])
          let repl :=
            match lookupA params (String.mk name) with
            | some v => v.data
            | none => matched
          repl ++ resolveScan params fuel rest'
      | [] => c :: cs
    else
      c :: resolveScan params fuel cs

/-- `resolveTemplate` of both template repositories: substitute every
`${name}` span whose name is bound in `params`, leaving unbound spans
verbatim. -/
def resolveTemplate (params : List (String × String)) (s : String) : String :=
  String.mk (resolveScan params s.data.length s.data)

/-! ## Template id generation -/

/-- Collapse maximal runs of characters failing `keep` into single hyphens
(the `ReplaceAllString` of the id generators); the flag tracks whether the
previous character already belonged to a replaced run. -/
def collapseAux (keep : Char → Bool) : Bool → List Char → List Char
  | _, [] => []
  | inRun, c :: cs =>
    if keep c then c :: collapseAux keep false cs
    else if inRun then collapseAux keep true cs
    else '-' :: collapseAux keep true cs

/-- Strip leading and trailing hyphens (`strings.Trim(id, "-")`). -/
def trimHyphens (cs : List Char) : List Char :=
  ((cs.dropWhile (fun c => c = '-')).reverse.dropWhile (fun c => c = '-')).reverse

/-- `strings.ToLower` (per-character; Go and this model agree on the ASCII
range, and characters outside `[a-zA-Z0-9]` are collapsed away downstream
either way). -/
def lowerString (s : String) : String :=
  String.mk (s.data.map Char.toLower)

/-- `template.generateFileTemplateID`: lowercase, collapse non-alphanumeric
runs (`[^a-zA-Z0-9]+`) to hyphens, trim hyphens, append the formatted
timestamp `stamp`. -/
def generateFileTemplateID (name stamp : String) : String :=
  String.mk (trimHyphens (collapseAux Char.isAlphanum false (lowerString name).data))
    ++ "-" ++ stamp

/-- Whether a character is in `[a-z0-9]`. -/
def isLowerAlnum (c : Char) : Bool :=
  (('a' ≤ c) && (c ≤ 'z')) || c.isDigit

/-- `template.generateTemplateID` (SQLite backend): lowercase, collapse
`[^a-z0-9]+` runs to hyphens, trim, append the Unix-seconds `stamp`. -/
def generateTemplateID (name stamp : String) : String :=
  String.mk (trimHyphens (collapseAux isLowerAlnum false (lowerString name).data))
    ++ "-" ++ stamp

/-! ## Template engine: file backend (pkg/repositories/template/file_repository.go)

One YAML file per template, keyed by id. -/

/-- The `task-templates` directory: id-keyed template files. -/
structure TplFS where
  files : List (String × TaskTemplate)
  deriving Repr

/-- `FileRepository.GetTemplate`: read the id-named file or NotFound. -/
def fileGetTemplate (fs : TplFS) (id : String) : Except Err TaskTemplate :=
  match lookupA fs.files id with
  | some t => .ok t
  | none => .error (.notFound id)

/-- `FileRepository.CreateTemplate`: mutate the caller's template (generated
id when absent, both timestamps set to now, nil collections replaced by empty
ones), then refuse when the id is taken, else persist.  The first component
is the value the caller's pointer holds afterwards. -/
def fileCreateTemplate (fs : TplFS) (t : TaskTemplate) (now : Nat) (stamp : String) :
    TaskTemplate × Except Err TplFS :=
  let t1 := if t.id = "" then { t with id := generateFileTemplateID t.name stamp } else t
  let t2 := { t1 with
    createdAt := now
    updatedAt := now
    parameters := some t1.paramsL
    tasks := some t1.tasksL
    prerequisites := some (t1.prerequisites.getD []) }
  (t2,
    if hasKeyA fs.files t2.id then .error (.conflict t2.id)
    else .ok ⟨fs.files ++ [(t2.id, t2)]⟩)

/-- `FileRepository.UpdateTemplate`: id must be non-empty and exist; the
update timestamp is refreshed and the stored file replaced wholesale (the
creation timestamp persisted is whatever the caller's template carries). -/
def fileUpdateTemplate (fs : TplFS) (t : TaskTemplate) (now : Nat) :
    Except Err TplFS :=
  if t.id = "" then .error (.msg "template ID is required for update")
  else if hasKeyA fs.files t.id then
    let t2 := { t with updatedAt := now }
    .ok ⟨fs.files.map (fun e => if e.1 = t.id then (t.id, t2) else e)⟩
  else .error (.notFound t.id)

/-- `FileRepository.InstantiateTemplate`: fail when some required parameter
is absent from the caller map (declared defaults are not consulted, and an
empty caller value passes), then substitute using the caller map alone. -/
def fileInstantiateTemplate (fs : TplFS) (templateID : String)
    (params : List (String × String)) : Except Err TemplateInstance :=
  match fileGetTemplate fs templateID with
  | .error e => .error e
  | .ok t =>
    match t.paramsL.find? (fun e => e.2.required && ¬ hasKeyA params e.1) with
    | some e => .error (.missingRequired e.1)
    | none =>
      .ok ⟨templateID, params, t.tasksL.map (resolveTemplate params)⟩

/-! ## Template engine: SQLite backend
(pkg/repositories/template/sqlite_repository.go) -/

/-- The `task_templates` table, keyed by id. -/
structure TplDB where
  rows : List TaskTemplate
  deriving Repr

/-- `SqliteRepository.GetTemplate`. -/
def sqliteGetTemplate (db : TplDB) (id : String) : Except Err TaskTemplate :=
  match db.rows.find? (fun r => r.id = id) with
  | some t => .ok t
  | none => .error (.notFound id)

/-- `SqliteRepository.CreateTemplate`: same caller-visible mutation as the
file backend except that nil collections are not replaced; the INSERT fails
on a primary-key conflict. -/
def sqliteCreateTemplate (db : TplDB) (t : TaskTemplate) (now : Nat) (stamp : String) :
    TaskTemplate × Except Err TplDB :=
  let t1 := if t.id = "" then { t with id := generateTemplateID t.name stamp } else t
  let t2 := { t1 with createdAt := now, updatedAt := now }
  (t2,
    if (db.rows.find? (fun r => r.id = t2.id)).isSome then .error (.conflict t2.id)
    else .ok ⟨db.rows ++ [t2]⟩)

/-- `SqliteRepository.UpdateTemplate`: `UPDATE ... WHERE id = ?` touching
every column except id and created_at; zero affected rows is NotFound. -/
def sqliteUpdateTemplate (db : TplDB) (t : TaskTemplate) (now : Nat) :
    Except Err TplDB :=
  if db.rows.any (fun r => r.id = t.id) then
    .ok ⟨db.rows.map
      (fun r =>
        if r.id = t.id then { t with id := r.id, createdAt := r.createdAt, updatedAt := now }
        else r)⟩
  else .error (.notFound t.id)

/-- The resolved parameter map of `SqliteRepository.InstantiateTemplate`:
caller values merged over declared non-empty defaults, restricted to the
declared parameters. -/
def mergeResolved (declared : List (String × Parameter))
    (params : List (String × String)) : List (String × String) :=
  declared.filterMap
    (fun e =>
      match lookupA params e.1 with
      | some v => some (e.1, v)
      | none => if ¬ e.2.dflt = "" then some (e.1, e.2.dflt) else none)

/-- `SqliteRepository.InstantiateTemplate`: no required-parameter check; fill
defaults for missing optional parameters and substitute. -/
def sqliteInstantiateTemplate (db : TplDB) (templateID : String)
    (params : List (String × String)) : Except Err TemplateInstance :=
  match sqliteGetTemplate db templateID with
  | .error e => .error e
  | .ok t =>
    let resolved := mergeResolved t.paramsL params
    .ok ⟨templateID, resolved, t.tasksL.map (resolveTemplate resolved)⟩

/-! ## Action layer (pkg/actions) -/

/-- `actions.validateTemplate`: the creation/update validation gate. -/
def validateTemplate (t : TaskTemplate) : Except Err Unit :=
  if t.name = "" then .error (.msg "template name is required")
  else if t.description = "" then .error (.msg "template description is required")
  else if t.tasksL = [] then .error (.msg "template must have at least one task")
  else
    match t.paramsL.find?
      (fun e => e.1 = "" || e.2.type = "" || (e.2.type = "enum" && e.2.values = [])) with
    | some e => .error (.msg ("invalid parameter: " ++ e.1))
    | none => .ok ()

/-- `actions.validateTemplateParameters`: every required parameter needs a
non-empty caller-supplied value (`!exists || value == ""`); every supplied
value for a declared enum parameter with declared values must be one of
them. -/
def validateTemplateParameters (t : TaskTemplate)
    (params : List (String × String)) : Except Err Unit :=
  match t.paramsL.find?
    (fun e => e.2.required && ((lookupA params e.1).getD "" = "")) with
  | some e => .error (.missingRequired e.1)
  | none =>
    match params.find?
      (fun e =>
        match lookupA t.paramsL e.1 with
        | some prm => prm.type = "enum" && ¬ prm.values = [] && ¬ prm.values.contains e.2
        | none => false) with
    | some e => .error (.notInEnum e.1)
    | none => .ok ()

/-- `actions.NewInstantiateTemplateHandler` wired to the SQLite backends:
fetch the template, validate the caller parameters, instantiate, then enqueue
the resolved tasks for the chat session.  The second component is the task
queue afterwards; on any error it is unchanged. -/
def instantiateHandlerS (tdb : TplDB) (qdb : TaskDB) (templateID sid : String)
    (params : List (String × String)) (times : List Nat) :
    Except Err (TemplateInstance × List Task) × TaskDB :=
  match sqliteGetTemplate tdb templateID with
  | .error e => (.error e, qdb)
  | .ok t =>
    match validateTemplateParameters t params with
    | .error e => (.error e, qdb)
    | .ok _ =>
      match sqliteInstantiateTemplate tdb templateID params with
      | .error e => (.error e, qdb)
      | .ok inst =>
        let r := sqliteAddTasks qdb sid (inst.tasks.zip times)
        (.ok (inst, r.2), r.1)

/-- `actions.NewTaskTemplateInstantiateHandler` wired to the file backends:
same pipeline against the file template repository and the scope-less file
task queue. -/
def instantiateHandlerF (tfs : TplFS) (q : TasksFile) (templateID : String)
    (params : List (String × String)) (now : Nat) :
    Except Err (TemplateInstance × List GlobalTask) × TasksFile :=
  match fileGetTemplate tfs templateID with
  | .error e => (.error e, q)
  | .ok t =>
    match validateTemplateParameters t params with
    | .error e => (.error e, q)
    | .ok _ =>
      match fileInstantiateTemplate tfs templateID params with
      | .error e => (.error e, q)
      | .ok inst =>
        let r := fileAddTasks q inst.tasks now
        (.ok (inst, r.2), r.1)

/-- `actions.NewTaskTemplateUpdateHandler` against the file backend: require
an id, fetch the existing template (NotFound otherwise), copy its creation
timestamp into the caller's template, validate, then update. -/
def updateHandlerF (fs : TplFS) (tpl : TaskTemplate) (now : Nat) :
    Except Err Unit × TplFS :=
  if tpl.id = "" then (.error (.msg "Template ID is required for update"), fs)
  else
    match fileGetTemplate fs tpl.id with
    | .error _ => (.error (.notFound tpl.id), fs)
    | .ok existing =>
      let t := { tpl with createdAt := existing.createdAt }
      match validateTemplate t with
      | .error e => (.error e, fs)
      | .ok _ =>
        match fileUpdateTemplate fs t now with
        | .error e => (.error e, fs)
        | .ok fs' => (.ok (), fs')

/-- `actions.NewTaskTemplateUpdateHandler` against the SQLite backend. -/
def updateHandlerS (db : TplDB) (tpl : TaskTemplate) (now : Nat) :
    Except Err Unit × TplDB :=
  if tpl.id = "" then (.error (.msg "Template ID is required for update"), db)
  else
    match sqliteGetTemplate db tpl.id with
    | .error _ => (.error (.notFound tpl.id), db)
    | .ok existing =>
      let t := { tpl with createdAt := existing.createdAt }
      match validateTemplate t with
      | .error e => (.error e, db)
      | .ok _ =>
        match sqliteUpdateTemplate db t now with
        | .error e => (.error e, db)
        | .ok db' => (.ok (), db')

/-! ## Helper lemmas -/

theorem find?_append_some {α : Type} (p : α → Bool) (l₁ l₂ : List α) (r : α)
    (h : l₁.find? p = some r) : (l₁ ++ l₂).find? p = some r := by
  induction l₁ with
  | nil => simp [List.find?] at h
  | cons x xs ih =>
    rw [List.find?_cons] at h
    simp only [List.cons_append, List.find?_cons]
    cases hx : p x with
    | true => rw [hx] at h; exact h
    | false => rw [hx] at h; exact ih h

theorem find?_append_none {α : Type} (p : α → Bool) (l₁ l₂ : List α)
    (h : l₁.find? p = none) : (l₁ ++ l₂).find? p = l₂.find? p := by
  induction l₁ with
  | nil => simp
  | cons x xs ih =>
    rw [List.find?_cons] at h
    simp only [List.cons_append, List.find?_cons]
    cases hx : p x with
    | true => rw [hx] at h; simp at h
    | false => rw [hx] at h; exact ih h

/-- Mapping a function over a list transforms its first `p`-match into the
first `q`-match, when `f` turns `p`-rows into `q`-rows and non-`p`-rows into
non-`q`-rows. -/
theorem find?_map_of_pred {α β : Type} (f : α → β) (p : α → Bool) (q : β → Bool)
    (hpq : ∀ x, p x = true → q (f x) = true)
    (hnpq : ∀ x, p x = false → q (f x) = false) :
    ∀ (l : List α) (r : α), l.find? p = some r → (l.map f).find? q = some (f r) := by
  intro l
  induction l with
  | nil => intro r h; simp [List.find?] at h
  | cons x xs ih =>
    intro r h
    rw [List.find?_cons] at h
    rw [List.map_cons, List.find?_cons]
    cases hx : p x with
    | true =>
      rw [hx] at h
      cases h
      rw [hpq x hx]
    | false =>
      rw [hx] at h
      rw [hnpq x hx]
      exact ih r h

theorem lookupP_filter_append {α : Type} (l : List (List String × α))
    (k : List String) (v : α) :
    lookupP (l.filter (fun e => ¬ e.1 = k) ++ [(k, v)]) k = some v := by
  unfold lookupP
  rw [find?_append_none]
  · simp [List.find?]
  · rw [List.find?_eq_none]
    intro e he
    simp only [List.mem_filter] at he
    simpa using he.2

/-- Appending `.md` always yields the `.md` suffix. -/
theorem endsWithMD_append (p : String) : endsWithMD (p ++ ".md") = true := by
  unfold endsWithMD
  have h : (p ++ ".md").data = p.data ++ ['.', 'm', 'd'] := by
    simp [String.data_append]
  rw [h, List.reverse_append]
  simp

/-- Normalization is idempotent: an already normalized path is untouched. -/
theorem normalizePath_idem (p : String) :
    normalizePath (normalizePath p) = normalizePath p := by
  unfold normalizePath
  by_cases h : endsWithMD p = true
  · simp [h]
  · simp [h, endsWithMD_append]

/-- Write, read and delete of the file backend resolve a path and its
normalized form identically. -/
theorem resolvePath_normalize (base : List String) (p : String) :
    resolvePath base (normalizePath p) = resolvePath base p := by
  unfold resolvePath
  rw [normalizePath_idem]

/-- `ensureParentDirectories` only appends directory rows for the parent
paths of `p`, under the same project. -/
theorem ensure_shape (db : KDB) (proj p : String) :
    ∃ extra, (ensureParentDirectories db proj p).rows = db.rows ++ extra ∧
      ∀ r ∈ extra, r.project = proj ∧
        r.path ∈ cumPaths (splitSlash (dirOf p)) ∧ r.isDirectory = true := by
  unfold ensureParentDirectories
  by_cases hd : (dirOf p = "." || dirOf p = "/") = true
  · exact ⟨[], by simp [hd]⟩
  · simp only [hd, Bool.false_eq_true, if_false]
    generalize cumPaths (splitSlash (dirOf p)) = qs
    induction qs generalizing db with
    | nil => exact ⟨[], by simp⟩
    | cons q qs ih =>
      simp only [List.foldl_cons]
      by_cases hq : (kFind db proj q).isSome = true
      · obtain ⟨extra, he, hmem⟩ := ih ⟨db.rows⟩
        refine ⟨extra, ?_, ?_⟩
        · simpa [hq] using he
        · intro r hr
          obtain ⟨h1, h2, h3⟩ := hmem r hr
          exact ⟨h1, List.mem_cons_of_mem _ h2, h3⟩
      · obtain ⟨extra, he, hmem⟩ := ih ⟨db.rows ++ [⟨proj, q, "", true⟩]⟩
        refine ⟨⟨proj, q, "", true⟩ :: extra, ?_, ?_⟩
        · simp only [Bool.not_eq_true] at hq
          simpa [hq] using he
        · intro r hr
          rcases List.mem_cons.mp hr with hr | hr
          · subst hr; exact ⟨rfl, List.mem_cons_self _ _, rfl⟩
          · obtain ⟨h1, h2, h3⟩ := hmem r hr
            exact ⟨h1, List.mem_cons_of_mem _ h2, h3⟩

/-- First-match mapping: the first `q`-match of the mapped list is the image
of the first `p`-match, when that image satisfies `q` and images of
non-`p`-elements do not. -/
theorem find?_map_first {α β : Type} (f : α → β) (p : α → Bool) (q : β → Bool) :
    ∀ (l : List α) (r : α), l.find? p = some r → q (f r) = true →
      (∀ x, p x = false → q (f x) = false) →
      (l.map f).find? q = some (f r) := by
  intro l
  induction l with
  | nil => intro r h; simp [List.find?] at h
  | cons x xs ih =>
    intro r h hq hnpq
    rw [List.find?_cons] at h
    rw [List.map_cons, List.find?_cons]
    cases hx : p x with
    | true =>
      rw [hx] at h
      cases h
      rw [hq]
    | false =>
      rw [hx] at h
      rw [hnpq x hx]
      exact ih r h hq hnpq

/-- File-backend round trip: when the resolved target is not an existing
directory and no prefix of its parent is an existing file, `Write(p, c)`
succeeds and `Read(p)` returns exactly `c`. -/
theorem file_write_read (base : List String) (fs : FileFS) (p c : String)
    (h1 : (prefixesOf (resolvePath base p).dropLast).all
      (fun q => (lookupP fs.files q).isNone) = true)
    (h2 : fs.dirs.contains (resolvePath base p) = false) :
    ∃ fs', fileKWrite base fs p c = .ok fs' ∧ fileKRead base fs' p = .ok c := by
  have hany : ((prefixesOf (resolvePath base p).dropLast).any
      (fun q => (lookupP fs.files q).isSome)) = false := by
    rw [List.any_eq_false]
    intro q hq
    have h := List.all_eq_true.mp h1 q hq
    simp only [Option.isNone_iff_eq_none] at h
    simp [h]
  refine ⟨⟨fs.files.filter (fun e => ¬ e.1 = resolvePath base p)
      ++ [(resolvePath base p, c)],
      (prefixesOf (resolvePath base p).dropLast).foldl
        (fun ds q => if ds.contains q then ds else ds ++ [q]) fs.dirs⟩, ?_, ?_⟩
  · unfold fileKWrite
    simp only [hany, h2, Bool.false_eq_true, if_false]
  · simp only [fileKRead]
    rw [lookupP_filter_append]

/-- SQLite-backend round trip: when the exact path is not already stored as
a directory row (and no parent-path string coincides with the path itself),
`Write` followed by `Read` of the same raw path returns the content. -/
theorem sqlite_write_read (db : KDB) (proj p c : String)
    (h1 : ∀ r, kFind db proj p = some r → r.isDirectory = false)
    (h2 : ¬ p ∈ cumPaths (splitSlash (dirOf p))) :
    sqliteKRead (sqliteKWrite db proj p c) proj p = .ok c := by
  obtain ⟨extra, he, hextra⟩ := ensure_shape db proj p
  simp only [sqliteKWrite]
  cases hf : kFind db proj p with
  | some r =>
    have hfile : r.isDirectory = false := h1 r hf
    have hpr : r.project = proj ∧ r.path = p := by
      have hx := List.find?_some hf
      simpa using hx
    have hr : kFind (ensureParentDirectories db proj p) proj p = some r := by
      unfold kFind at hf ⊢
      rw [he]
      exact find?_append_some _ _ _ _ hf
    rw [hr]
    simp only [sqliteKRead]
    rw [he]
    have hfr : List.find? (fun x : KRow => decide (x.project = proj) && decide (x.path = p))
        (db.rows ++ extra) = some r := by
      unfold kFind at hf
      exact find?_append_some _ _ _ _ hf
    rw [find?_map_first
      (fun x : KRow =>
        if x.project = proj && x.path = p then { x with content := c } else x)
      (fun x : KRow => decide (x.project = proj) && decide (x.path = p))
      (fun x : KRow => decide (x.project = proj) && decide (x.path = p)
        && decide (x.isDirectory = false))
      (db.rows ++ extra) r hfr (by simp [hpr.1, hpr.2, hfile])
      (by intro x hx; simp [hx])]
    simp [hpr.1, hpr.2]
  | none =>
    have hr : kFind (ensureParentDirectories db proj p) proj p = none := by
      unfold kFind at hf ⊢
      rw [he, find?_append_none _ _ _ hf, List.find?_eq_none]
      intro x hx
      have hpath := (hextra x hx).2.1
      simp only [Bool.and_eq_true, decide_eq_true_eq, not_and]
      intro _ hc
      exact h2 (hc ▸ hpath)
    rw [hr]
    simp only [sqliteKRead]
    rw [he]
    have hd1 : (db.rows).find?
        (fun x : KRow => decide (x.project = proj) && decide (x.path = p)
          && decide (x.isDirectory = false)) = none := by
      unfold kFind at hf
      rw [List.find?_eq_none] at hf ⊢
      intro x hx
      have h2x : (decide (x.project = proj) && decide (x.path = p)) = false :=
        Bool.eq_false_iff.mpr (hf x hx)
      simp [h2x]
    have hd2 : extra.find?
        (fun x : KRow => decide (x.project = proj) && decide (x.path = p)
          && decide (x.isDirectory = false)) = none := by
      rw [List.find?_eq_none]
      intro x hx
      have hpath := (hextra x hx).2.1
      simp only [Bool.and_eq_true, decide_eq_true_eq]
      rintro ⟨⟨_, hc⟩, _⟩
      exact h2 (hc ▸ hpath)
    rw [List.append_assoc, find?_append_none _ _ _ hd1, find?_append_none _ _ _ hd2]
    simp [List.find?]

/-- SQLite-backend cascade delete: when a row exists at the path, delete
succeeds and every path equal to it or nested beneath it becomes
unreadable. -/
theorem find?_filter_none {α : Type} (pq pd : α → Bool) (l : List α)
    (h : ∀ x ∈ l, pd x = true → pq x = false) :
    (l.filter pd).find? pq = none := by
  rw [List.find?_eq_none]
  intro x hx
  rw [List.mem_filter] at hx
  rw [h x hx.1 hx.2]
  simp

theorem sqlite_delete_cascade (db : KDB) (proj p : String)
    (h : (kFind db proj p).isSome = true) :
    ∃ db', sqliteKDelete db proj p = .ok db' ∧
      ∀ q, (q = p ∨ strStartsWith (p ++ "/") q = true) →
        sqliteKRead db' proj q = .error ("file not found: " ++ q) := by
  cases hdel : sqliteKDelete db proj p with
  | error e => simp [sqliteKDelete, h] at hdel
  | ok db' =>
    refine ⟨db', rfl, ?_⟩
    intro q hq
    simp only [sqliteKDelete, h, if_true, Except.ok.injEq] at hdel
    subst hdel
    simp only [sqliteKRead]
    rw [find?_filter_none]
    intro x _ hdx
    rw [Bool.eq_false_iff]
    intro htrue
    simp only [Bool.and_eq_true, decide_eq_true_eq] at htrue
    obtain ⟨⟨hproj, hpath⟩, _⟩ := htrue
    simp only [decide_eq_true_eq] at hdx
    apply hdx
    simp only [Bool.and_eq_true, Bool.or_eq_true, decide_eq_true_eq]
    refine ⟨hproj, ?_⟩
    rcases hq with hq | hq
    · left; exact hpath.trans hq
    · right; rw [hpath]; exact hq

/-! ## FIFO drain lemmas for the task queue -/

theorem foldl_min_keep (u : Task) :
    ∀ rest : List Task, (∀ b ∈ rest, taskBefore b u = false) →
      rest.foldl (fun a b => if taskBefore b a then b else a) u = u := by
  intro rest
  induction rest with
  | nil => intro _; rfl
  | cons b bs ih =>
    intro h
    rw [List.foldl_cons, h b (List.mem_cons_self _ _)]
    simp only [Bool.false_eq_true, if_false]
    exact ih (fun x hx => h x (List.mem_cons_of_mem _ hx))

theorem selectOldest_eq (rows : List Task) (s : String) (u : Task) (tail : List Task)
    (hfil : rows.filter (fun r => r.chatSessionID = s) = u :: tail)
    (hmin : ∀ b ∈ tail, taskBefore b u = false) :
    selectOldest rows s = some u := by
  unfold selectOldest
  rw [hfil]
  dsimp only
  rw [foldl_min_keep u tail hmin]

theorem mkRows_mem (s : String) :
    ∀ (cts : List (String × Nat)) (i : Nat) (r : Task), r ∈ mkRows s cts i →
      r.chatSessionID = s ∧ i ≤ r.id ∧ (r.content, r.createdAt) ∈ cts := by
  intro cts
  induction cts with
  | nil => intro i r h; simp [mkRows] at h
  | cons ct rest ih =>
    obtain ⟨c, t⟩ := ct
    intro i r h
    rcases List.mem_cons.mp h with h | h
    · subst h
      exact ⟨rfl, Nat.le_refl _, List.mem_cons_self _ _⟩
    · obtain ⟨h1, h2, h3⟩ := ih (i + 1) r h
      exact ⟨h1, Nat.le_of_succ_le h2, List.mem_cons_of_mem _ h3⟩

theorem mkRows_contents (s : String) :
    ∀ (cts : List (String × Nat)) (i : Nat),
      (mkRows s cts i).map (fun r => r.content) = cts.map Prod.fst := by
  intro cts
  induction cts with
  | nil => intro i; rfl
  | cons ct rest ih =>
    obtain ⟨c, t⟩ := ct
    intro i
    simp [mkRows, ih (i + 1)]

theorem mkRows_ids (s : String) :
    ∀ (cts : List (String × Nat)) (i : Nat),
      (mkRows s cts i).map (fun r => r.id)
        = (List.range cts.length).map (fun k => i + k) := by
  intro cts
  induction cts with
  | nil => intro i; rfl
  | cons ct rest ih =>
    obtain ⟨c, t⟩ := ct
    intro i
    simp only [mkRows, List.map_cons, List.length_cons, List.range_succ_eq_map,
      List.map_map, ih (i + 1)]
    refine congrArg (List.cons _) ?_
    apply List.map_congr_left
    intro k _
    simp [Function.comp]
    omega

theorem mkRows_ids_nodup (s : String) (cts : List (String × Nat)) (i : Nat) :
    ((mkRows s cts i).map (fun r => r.id)).Nodup := by
  rw [mkRows_ids]
  exact (List.nodup_range _).map (fun a b h => by omega)

theorem filter_sid_append (s : String) (others batch : List Task)
    (ho : ∀ r ∈ others, ¬ r.chatSessionID = s)
    (hb : ∀ r ∈ batch, r.chatSessionID = s) :
    (others ++ batch).filter (fun r => r.chatSessionID = s) = batch := by
  rw [List.filter_append,
    List.filter_eq_nil_iff.mpr (by intro r hr; simpa using ho r hr),
    List.filter_eq_self.mpr (by intro r hr; simpa using hb r hr)]
  simp

theorem filter_ne_id (u : Task) (others tail : List Task)
    (ho : ∀ r ∈ others, ¬ r.id = u.id)
    (ht : ∀ r ∈ tail, ¬ r.id = u.id) :
    (others ++ u :: tail).filter (fun r => ¬ r.id = u.id) = others ++ tail := by
  have h1 : others.filter (fun r => ¬ r.id = u.id) = others :=
    List.filter_eq_self.mpr (by intro r hr; simpa using ho r hr)
  have h2 : (u :: tail).filter (fun r => ¬ r.id = u.id) = tail := by
    rw [List.filter_cons]
    have hu : (decide ¬u.id = u.id) = false := by simp
    rw [hu]
    simp only [Bool.false_eq_true, if_false]
    exact List.filter_eq_self.mpr (by intro r hr; simpa using ht r hr)
  rw [List.filter_append, h1, h2]

/-- Draining a freshly added batch: starting from a store whose rows all
belong to other sessions and have smaller ids, `n` dequeues return exactly
the batch in insertion order and leave the other rows untouched. -/
theorem sqlite_drain (s : String) :
    ∀ (cts : List (String × Nat)) (others : List Task) (i n0 : Nat),
      (∀ r ∈ others, ¬ r.chatSessionID = s) →
      (∀ r ∈ others, r.id < i) →
      (cts.map Prod.snd).Pairwise (· ≤ ·) →
      sqliteGetTasksN ⟨others ++ mkRows s cts i, n0⟩ s cts.length
        = (mkRows s cts i, ⟨others, n0⟩) := by
  intro cts
  induction cts with
  | nil =>
    intro others i n0 _ _ _
    simp [mkRows, sqliteGetTasksN]
  | cons ct rest ih =>
    obtain ⟨c, t⟩ := ct
    intro others i n0 ho hid hpw
    have hpw0 : List.map Prod.snd ((c, t) :: rest) = t :: rest.map Prod.snd := rfl
    rw [hpw0] at hpw
    have hpw' := List.pairwise_cons.mp hpw
    have hu : mkRows s ((c, t) :: rest) i = ⟨i, s, c, t⟩ :: mkRows s rest (i + 1) := rfl
    have htail : ∀ b ∈ mkRows s rest (i + 1), taskBefore b (⟨i, s, c, t⟩ : Task) = false := by
      intro b hb
      obtain ⟨_, hble, hbmem⟩ := mkRows_mem s rest (i + 1) b hb
      have hble2 : t ≤ b.createdAt :=
        hpw'.1 b.createdAt (List.mem_map.mpr ⟨(b.content, b.createdAt), hbmem, rfl⟩)
      simp only [taskBefore]
      simp only [Bool.or_eq_false_iff, Bool.and_eq_false_iff, decide_eq_false_iff_not]
      constructor
      · omega
      · right; omega
    have hsel : selectOldest (others ++ mkRows s ((c, t) :: rest) i) s
        = some ⟨i, s, c, t⟩ := by
      apply selectOldest_eq _ _ _ (mkRows s rest (i + 1))
      · rw [hu]
        apply filter_sid_append s others _ ho
        intro r hr
        exact (mkRows_mem s ((c, t) :: rest) i r (hu ▸ hr)).1
      · exact htail
    have hdel : (others ++ mkRows s ((c, t) :: rest) i).filter
        (fun r => ¬ r.id = (⟨i, s, c, t⟩ : Task).id) = others ++ mkRows s rest (i + 1) := by
      rw [hu]
      apply filter_ne_id
      · intro r hr
        have := hid r hr
        simp only [decide_eq_true_eq]
        omega
      · intro r hr
        have := (mkRows_mem s rest (i + 1) r hr).2.1
        simp only [decide_eq_true_eq]
        omega
    have hget : sqliteGetTask ⟨others ++ mkRows s ((c, t) :: rest) i, n0⟩ s
        = .ok (⟨i, s, c, t⟩, ⟨others ++ mkRows s rest (i + 1), n0⟩) := by
      unfold sqliteGetTask
      rw [hsel]
      dsimp only
      rw [hdel]
    show sqliteGetTasksN _ s (rest.length + 1) = _
    rw [sqliteGetTasksN, hget]
    dsimp only
    rw [ih others (i + 1) n0 ho (fun r hr => Nat.lt_succ_of_lt (hid r hr)) hpw'.2]
    dsimp only
    rw [hu]

/-- Draining the file-backed queue completely: `n` dequeues on an `n`-task
store return the tasks in order and leave the store empty. -/
theorem file_drain :
    ∀ (l : List GlobalTask) (n0 : Nat),
      fileGetTasksN ⟨l, n0⟩ l.length = (l, ⟨[], n0⟩) := by
  intro l
  induction l with
  | nil => intro n0; rfl
  | cons t rest ih =>
    intro n0
    show fileGetTasksN _ (rest.length + 1) = _
    rw [fileGetTasksN]
    show (t :: (fileGetTasksN ⟨rest, n0⟩ rest.length).1,
      (fileGetTasksN ⟨rest, n0⟩ rest.length).2) = _
    rw [ih n0]

/-! ## Concrete scenario data used by several claims -/

/-- The template of the P6 scenario: tasks `["Create ${x} with ${y}"]`, a
required parameter `x` without default and an optional parameter `y` with
declared default `medium`. -/
def tplScenario : TaskTemplate :=
  ⟨"tpl-1", "T", "d", "",
    some [("x", ⟨"string", "", true, "", []⟩), ("y", ⟨"string", "", false, "medium", []⟩)],
    some ["Create ${x} with ${y}"], "", some [], 0, 0⟩

/-- The file-backend state after `Write("a/b.md", "one")` from an empty store
rooted at `r`. -/
def c4fs1 : FileFS :=
  ⟨[(["r", "a", "b.md"], "one")], [["r"], ["r", "a"]]⟩

/-- The file-backend state after additionally `Write("a/c/d.md", "two")`. -/
def c4fs : FileFS :=
  ⟨[(["r", "a", "b.md"], "one"), (["r", "a", "c", "d.md"], "two")],
    [["r"], ["r", "a"], ["r", "a", "c"]]⟩

/-- The SQLite knowledge state after the same two writes. -/
def c4db : KDB :=
  sqliteKWrite (sqliteKWrite ⟨[]⟩ "p" "a/b.md" "one") "p" "a/c/d.md" "two"

/-! ## C3: knowledge round trip -/

/-- C3 counterexample: in the SQLite backend, once a path exists as a
directory row (created implicitly by an earlier nested write), a write to
that exact path succeeds and replaces the content but leaves the directory
flag set, so the subsequent read of the same path fails instead of returning
the written content -- and no `.md` normalization is applied anywhere. -/
theorem C3_round_trip_counterexample :
    sqliteKRead (sqliteKWrite (sqliteKWrite ⟨[]⟩ "p" "a/b" "one") "p" "a" "two") "p" "a"
      = .error "file not found: a" ∧
    kFind (sqliteKWrite (sqliteKWrite ⟨[]⟩ "p" "a/b" "one") "p" "a" "two") "p" "a"
      = some ⟨"p", "a", "two", true⟩ := by
  exact ⟨by decide, by decide⟩

/-- C3 amended: the file backend round-trips -- `write(p, c)` then `read(p)`
returns exactly `c` -- whenever the resolved target is not an existing
directory and no prefix of its parent is an existing file, and its write,
read and delete share one normalization (forward slashes plus `.md`
appended when absent, witnessed by the resolution equality).  The SQLite
backend applies no normalization at all -- it stores and looks up the raw
path, so `write("test", c)` is not readable as `"test.md"` -- and
round-trips only when the exact path is not already a directory row. -/
theorem C3_round_trip_amended :
    (∀ (base : List String) (fs : FileFS) (p c : String),
      (prefixesOf (resolvePath base p).dropLast).all
        (fun q => (lookupP fs.files q).isNone) = true →
      fs.dirs.contains (resolvePath base p) = false →
      ∃ fs', fileKWrite base fs p c = .ok fs' ∧ fileKRead base fs' p = .ok c) ∧
    (∀ (base : List String) (p : String),
      resolvePath base (normalizePath p) = resolvePath base p) ∧
    (∀ (db : KDB) (proj p c : String),
      (∀ r, kFind db proj p = some r → r.isDirectory = false) →
      ¬ p ∈ cumPaths (splitSlash (dirOf p)) →
      sqliteKRead (sqliteKWrite db proj p c) proj p = .ok c) ∧
    sqliteKRead (sqliteKWrite ⟨[]⟩ "p" "test" "c") "p" "test" = .ok "c" ∧
    sqliteKRead (sqliteKWrite ⟨[]⟩ "p" "test" "c") "p" "test.md"
      = .error "file not found: test.md" :=
  ⟨file_write_read, resolvePath_normalize, sqlite_write_read, by decide, by decide⟩

/-- C3 witness: the amended round trips evaluated at concrete inputs. -/
theorem C3_round_trip_amended_witness :
    ((prefixesOf (resolvePath ["r"] "note").dropLast).all
      (fun q => (lookupP (FileFS.mk [] [["r"]]).files q).isNone) = true) ∧
    (FileFS.mk [] [["r"]]).dirs.contains (resolvePath ["r"] "note") = false ∧
    (∃ fs', fileKWrite ["r"] ⟨[], [["r"]]⟩ "note" "hello" = .ok fs' ∧
      fileKRead ["r"] fs' "note" = .ok "hello") ∧
    ¬ "q" ∈ cumPaths (splitSlash (dirOf "q")) ∧
    sqliteKRead (sqliteKWrite ⟨[]⟩ "p" "q" "new") "p" "q" = .ok "new" :=
  ⟨by decide, by decide,
   C3_round_trip_amended.1 ["r"] ⟨[], [["r"]]⟩ "note" "hello" (by decide) (by decide),
   by decide,
   C3_round_trip_amended.2.2.1 ⟨[]⟩ "p" "q" "new"
     (by intro r h; simp [kFind] at h) (by decide)⟩

/-! ## C4: cascade delete amended -/

/-- C4 amended: cascade delete holds in the SQLite backend -- deleting an
existing path removes it and every path nested beneath it, making them
unreadable, and the concrete P2 scenario ends with an empty store and an
empty listing.  In the file backend, delete appends `.md` and removes a
single file, so deleting the directory `a` fails with NotFound and both
nested files remain readable. -/
theorem C4_cascade_delete_amended :
    (∀ (db : KDB) (proj p : String),
      (kFind db proj p).isSome = true →
      ∃ db', sqliteKDelete db proj p = .ok db' ∧
        ∀ q, (q = p ∨ strStartsWith (p ++ "/") q = true) →
          sqliteKRead db' proj q = .error ("file not found: " ++ q)) ∧
    sqliteKDelete c4db "p" "a" = .ok ⟨[]⟩ ∧
    sqliteKList ⟨[]⟩ "p" = .mk [] ∧
    fileKDelete ["r"] c4fs "a" = .error "knowledge file not found: a" ∧
    fileKRead ["r"] c4fs "a/b.md" = .ok "one" ∧
    fileKRead ["r"] c4fs "a/c/d.md" = .ok "two" :=
  ⟨sqlite_delete_cascade, by decide, rfl, by decide, by decide, by decide⟩

/-- C4 witness: the cascade-delete statement applied to the concrete P2
scenario state. -/
theorem C4_cascade_delete_amended_witness :
    (kFind c4db "p" "a").isSome = true ∧
    (∃ db', sqliteKDelete c4db "p" "a" = .ok db' ∧
      ∀ q, (q = "a" ∨ strStartsWith ("a" ++ "/") q = true) →
        sqliteKRead db' "p" q = .error ("file not found: " ++ q)) :=
  ⟨by decide, C4_cascade_delete_amended.1 c4db "p" "a" (by decide)⟩

theorem map_enum_add (n0 : Nat) (l : List String) :
    l.enum.map (fun p => n0 + p.1) = (List.range l.length).map (fun k => n0 + k) := by
  rw [← List.enum_map_fst l, List.map_map]
  rfl

theorem fileAdd_contents (contents : List String) (now n0 : Nat) :
    (fileAddTasks ⟨[], n0⟩ contents now).2.map (fun t => t.content) = contents := by
  simp [fileAddTasks, List.map_map, Function.comp_def]

theorem fileAdd_ids_nodup (contents : List String) (now n0 : Nat) :
    ((fileAddTasks ⟨[], n0⟩ contents now).2.map (fun t => t.id)).Nodup := by
  have h : (fileAddTasks ⟨[], n0⟩ contents now).2.map (fun t => t.id)
      = (List.range contents.length).map (fun k => n0 + k) := by
    simp only [fileAddTasks, List.map_map]
    exact map_enum_add n0 contents
  rw [h]
  exact (List.nodup_range _).map (fun a b hab => by omega)

theorem file_fifo (contents : List String) (now n0 : Nat) :
    (fileGetTasksN (fileAddTasks ⟨[], n0⟩ contents now).1 contents.length).1
        = (fileAddTasks ⟨[], n0⟩ contents now).2 ∧
    (fileGetTasksN (fileAddTasks ⟨[], n0⟩ contents now).1 contents.length).2
        = ⟨[], n0 + contents.length⟩ := by
  have hstate : (fileAddTasks ⟨[], n0⟩ contents now).1
      = ⟨(fileAddTasks ⟨[], n0⟩ contents now).2, n0 + contents.length⟩ := by
    simp [fileAddTasks]
  have hlen : (fileAddTasks ⟨[], n0⟩ contents now).2.length = contents.length := by
    simp [fileAddTasks]
  rw [hstate, ← hlen, file_drain]
  exact ⟨rfl, rfl⟩

/-! ## C1: FIFO and exactly-once delivery -/

/-- C1 counterexample: in the SQLite backend, after enqueuing one task and
dequeuing it, the (n+1)-th `GetTask` call yields an error outcome, not the
empty outcome the claim states. -/
theorem C1_fifo_counterexample :
    (sqliteAddTasks ⟨[], 1⟩ "s" [("x", 0)]).1 = ⟨[⟨1, "s", "x", 0⟩], 2⟩ ∧
    sqliteGetTask ⟨[⟨1, "s", "x", 0⟩], 2⟩ "s" = .ok (⟨1, "s", "x", 0⟩, ⟨[], 2⟩) ∧
    sqliteGetTask ⟨[], 2⟩ "s" = .error "no pending tasks found for chat session: s" := by
  refine ⟨?_, ?_, ?_⟩ <;> decide

/-- C1 amended: in both backends, `addTasks` on a queue that holds no tasks
for the scope followed by `n` dequeues delivers the `n` added tasks exactly
once, in insertion order, with pairwise distinct identities, and removes
them from storage (the file store ends empty; the SQLite store ends with
exactly its pre-existing rows of other sessions).  The (n+1)-th call yields
the explicit empty outcome in the file backend but an error outcome in the
SQLite backend.  For the SQLite backend the per-row `CURRENT_TIMESTAMP`
values of the batch are assumed nondecreasing (a monotone clock). -/
theorem C1_fifo_exactly_once_amended :
    (∀ (contents : List String) (now n0 : Nat),
      (fileGetTasksN (fileAddTasks ⟨[], n0⟩ contents now).1 contents.length).1
          = (fileAddTasks ⟨[], n0⟩ contents now).2 ∧
      (fileAddTasks ⟨[], n0⟩ contents now).2.map (fun t => t.content) = contents ∧
      ((fileAddTasks ⟨[], n0⟩ contents now).2.map (fun t => t.id)).Nodup ∧
      (fileGetTasksN (fileAddTasks ⟨[], n0⟩ contents now).1 contents.length).2.tasks
          = [] ∧
      fileGetTask (fileGetTasksN (fileAddTasks ⟨[], n0⟩ contents now).1 contents.length).2
          = (none,
            (fileGetTasksN (fileAddTasks ⟨[], n0⟩ contents now).1 contents.length).2)) ∧
    (∀ (db : TaskDB) (s : String) (cts : List (String × Nat)),
      (∀ r ∈ db.rows, ¬ r.chatSessionID = s) →
      (∀ r ∈ db.rows, r.id < db.nextId) →
      (cts.map Prod.snd).Pairwise (· ≤ ·) →
      (sqliteGetTasksN (sqliteAddTasks db s cts).1 s cts.length).1
          = (sqliteAddTasks db s cts).2 ∧
      (sqliteAddTasks db s cts).2.map (fun t => t.content) = cts.map Prod.fst ∧
      ((sqliteAddTasks db s cts).2.map (fun t => t.id)).Nodup ∧
      (sqliteGetTasksN (sqliteAddTasks db s cts).1 s cts.length).2
          = ⟨db.rows, db.nextId + cts.length⟩ ∧
      sqliteGetTask (sqliteGetTasksN (sqliteAddTasks db s cts).1 s cts.length).2 s
          = .error ("no pending tasks found for chat session: " ++ s)) := by
  constructor
  · intro contents now n0
    refine ⟨(file_fifo contents now n0).1, fileAdd_contents contents now n0,
      fileAdd_ids_nodup contents now n0, ?_, ?_⟩
    · rw [(file_fifo contents now n0).2]
    · rw [(file_fifo contents now n0).2]
      rfl
  · intro db s cts h1 h2 h3
    have hadd1 : (sqliteAddTasks db s cts).1
        = ⟨db.rows ++ mkRows s cts db.nextId, db.nextId + cts.length⟩ := rfl
    have hadd2 : (sqliteAddTasks db s cts).2 = mkRows s cts db.nextId := rfl
    have hdrain := sqlite_drain s cts db.rows db.nextId (db.nextId + cts.length) h1 h2 h3
    have hlast : sqliteGetTask ⟨db.rows, db.nextId + cts.length⟩ s
        = .error ("no pending tasks found for chat session: " ++ s) := by
      unfold sqliteGetTask selectOldest
      rw [List.filter_eq_nil_iff.mpr (by intro r hr; simpa using h1 r hr)]
    rw [hadd1, hadd2, hdrain]
    exact ⟨rfl, mkRows_contents s cts db.nextId, mkRows_ids_nodup s cts db.nextId,
      rfl, hlast⟩

/-- C1 witness: the amended statement applied to a concrete store holding a
foreign-session row, with a three-task batch. -/
theorem C1_fifo_exactly_once_amended_witness :
    (∀ r ∈ ({ rows := [⟨1, "other", "z", 0⟩], nextId := 2 } : TaskDB).rows,
      ¬ r.chatSessionID = "s") ∧
    (∀ r ∈ ({ rows := [⟨1, "other", "z", 0⟩], nextId := 2 } : TaskDB).rows, r.id < 2) ∧
    (([("a", 3), ("b", 3), ("c", 4)].map Prod.snd).Pairwise (· ≤ ·)) ∧
    ((sqliteGetTasksN
        (sqliteAddTasks ⟨[⟨1, "other", "z", 0⟩], 2⟩ "s" [("a", 3), ("b", 3), ("c", 4)]).1
        "s" 3).1
      = (sqliteAddTasks ⟨[⟨1, "other", "z", 0⟩], 2⟩ "s" [("a", 3), ("b", 3), ("c", 4)]).2 ∧
     (sqliteAddTasks ⟨[⟨1, "other", "z", 0⟩], 2⟩ "s"
        [("a", 3), ("b", 3), ("c", 4)]).2.map (fun t => t.content) = ["a", "b", "c"] ∧
     ((sqliteAddTasks ⟨[⟨1, "other", "z", 0⟩], 2⟩ "s"
        [("a", 3), ("b", 3), ("c", 4)]).2.map (fun t => t.id)).Nodup ∧
     (sqliteGetTasksN
        (sqliteAddTasks ⟨[⟨1, "other", "z", 0⟩], 2⟩ "s" [("a", 3), ("b", 3), ("c", 4)]).1
        "s" 3).2
      = ⟨[⟨1, "other", "z", 0⟩], 2 + 3⟩ ∧
     sqliteGetTask
        (sqliteGetTasksN
          (sqliteAddTasks ⟨[⟨1, "other", "z", 0⟩], 2⟩ "s" [("a", 3), ("b", 3), ("c", 4)]).1
          "s" 3).2 "s"
      = .error ("no pending tasks found for chat session: " ++ "s")) := by
  refine ⟨by decide, by decide, by decide, ?_⟩
  exact C1_fifo_exactly_once_amended.2 ⟨[⟨1, "other", "z", 0⟩], 2⟩ "s"
    [("a", 3), ("b", 3), ("c", 4)] (by decide) (by decide) (by decide)

/-! ## C2: empty queue outcome -/

/-- C2 counterexample: on an empty queue the SQLite backend `GetTask`
escalates to an error ("no pending tasks found ...") instead of the explicit
empty outcome the claim promises for both backends. -/
theorem C2_empty_outcome_counterexample :
    sqliteGetTask ⟨[], 1⟩ "empty-session"
      = .error "no pending tasks found for chat session: empty-session" := by
  rfl

/-- C2 amended: for every scope whose queue holds no tasks, the file backend
returns the explicit empty outcome (nil task, nil error) and leaves the store
unchanged, while the SQLite backend reports the empty queue as an error. -/
theorem C2_empty_outcome_amended :
    (∀ f : TasksFile, f.tasks = [] → fileGetTask f = (none, f)) ∧
    (∀ (db : TaskDB) (s : String),
      db.rows.filter (fun r => r.chatSessionID = s) = [] →
      sqliteGetTask db s
        = .error ("no pending tasks found for chat session: " ++ s)) := by
  constructor
  · intro f h
    simp [fileGetTask, h]
  · intro db s h
    simp [sqliteGetTask, selectOldest, h]

/-- C2 witness: the amended statement applied to concrete empty stores. -/
theorem C2_empty_outcome_amended_witness :
    fileGetTask ⟨[], 7⟩ = (none, ⟨[], 7⟩) ∧
    sqliteGetTask ⟨[⟨1, "other", "x", 0⟩], 2⟩ "s"
      = .error ("no pending tasks found for chat session: " ++ "s") :=
  ⟨C2_empty_outcome_amended.1 ⟨[], 7⟩ rfl,
   C2_empty_outcome_amended.2 ⟨[⟨1, "other", "x", 0⟩], 2⟩ "s" (by decide)⟩

/-! ## C6: instantiation substitution -/

/-- C6 counterexample: on the P6 scenario the file backend ignores the
declared default `y=medium` and leaves the placeholder verbatim, yielding
`"Create foo with ${y}"` instead of the claimed `"Create foo with medium"`. -/
theorem C6_substitution_counterexample :
    fileInstantiateTemplate ⟨[("tpl-1", tplScenario)]⟩ "tpl-1" [("x", "foo")]
      = .ok ⟨"tpl-1", [("x", "foo")], ["Create foo with ${y}"]⟩ := by
  rfl

/-- C6 amended: only the SQLite backend merges caller values over declared
defaults; it yields `"Create foo with medium"` on the P6 scenario, while the
file backend substitutes caller-supplied values alone and yields
`"Create foo with ${y}"`. -/
theorem C6_substitution_amended :
    sqliteInstantiateTemplate ⟨[tplScenario]⟩ "tpl-1" [("x", "foo")]
      = .ok ⟨"tpl-1", [("x", "foo"), ("y", "medium")], ["Create foo with medium"]⟩ ∧
    fileInstantiateTemplate ⟨[("tpl-1", tplScenario)]⟩ "tpl-1" [("x", "foo")]
      = .ok ⟨"tpl-1", [("x", "foo")], ["Create foo with ${y}"]⟩ :=
  ⟨rfl, rfl⟩

/-! ## C4: cascade delete -/

/-- C4 counterexample: in the file backend, after writing `a/b.md` and
`a/c/d.md`, deleting `a` fails with NotFound (the path is normalized to
`a.md`, which does not exist) and both files remain readable. -/
theorem C4_cascade_delete_counterexample :
    fileKWrite ["r"] ⟨[], [["r"]]⟩ "a/b.md" "one" = .ok c4fs1 ∧
    fileKWrite ["r"] c4fs1 "a/c/d.md" "two" = .ok c4fs ∧
    fileKDelete ["r"] c4fs "a" = .error "knowledge file not found: a" ∧
    fileKRead ["r"] c4fs "a/b.md" = .ok "one" ∧
    fileKRead ["r"] c4fs "a/c/d.md" = .ok "two" := by
  refine ⟨?_, ?_, ?_, ?_, ?_⟩ <;> decide

/-! ## C8: root containment -/

/-- C8 counterexample: the file backend joins and lexically cleans the input
against its root, so the path `../escape` resolves outside the root and a
write succeeds there -- the store does escape its configured root. -/
theorem C8_root_containment_counterexample :
    resolvePath ["home", "brain", "knowledge"] "../escape"
      = ["home", "brain", "escape.md"] ∧
    isUnderRoot ["home", "brain", "knowledge"]
      (resolvePath ["home", "brain", "knowledge"] "../escape") = false ∧
    fileKWrite ["home", "brain", "knowledge"] ⟨[], [["home", "brain", "knowledge"]]⟩
        "../escape" "x"
      = .ok ⟨[(["home", "brain", "escape.md"], "x")],
          [["home", "brain", "knowledge"], ["home"], ["home", "brain"]]⟩ := by
  refine ⟨?_, ?_, ?_⟩ <;> decide

/-! ## C8: root containment amended -/

theorem foldl_cleanStep_no_dotdot :
    ∀ (xs : List String) (acc : List String), ¬ ".." ∈ xs →
      xs.foldl cleanStep acc = acc ++ xs.filter (fun s => ¬ (s = "" || s = ".")) := by
  intro xs
  induction xs with
  | nil => intro acc _; simp
  | cons x xs ih =>
    intro acc hx
    have hx1 : ¬ x = ".." := fun hc => hx (hc ▸ List.mem_cons_self _ _)
    have hx2 : ¬ ".." ∈ xs := fun hc => hx (List.mem_cons_of_mem _ hc)
    rw [List.foldl_cons, List.filter_cons]
    by_cases h : (x = "" ∨ x = ".")
    · have hs : cleanStep acc x = acc := by
        unfold cleanStep
        rcases h with h | h <;> simp [h]
      have hp : (decide ¬(x = "" || x = ".") = true) = false := by
        rcases h with h | h <;> simp [h]
      rw [hs, hp]
      simp only [Bool.false_eq_true, if_false]
      exact ih acc hx2
    · push_neg at h
      have hs : cleanStep acc x = acc ++ [x] := by
        unfold cleanStep
        simp [h.1, h.2, hx1]
      have hp : (decide ¬(x = "" || x = ".") = true) = true := by
        simp [h.1, h.2]
      rw [hs, hp]
      simp only [if_true]
      rw [ih (acc ++ [x]) hx2, List.append_assoc]
      rfl

/-- Paths whose normalized form has no `..` segment resolve to the root
followed by their meaningful segments, hence stay under the root. -/
theorem resolve_no_dotdot (base : List String) (p : String)
    (hbase : cleanAbs base = base)
    (h : ¬ ".." ∈ splitSlash (normalizePath p)) :
    isUnderRoot base (resolvePath base p) = true := by
  unfold resolvePath cleanAbs
  rw [List.foldl_append]
  have hb : base.foldl cleanStep [] = base := hbase
  rw [hb, foldl_cleanStep_no_dotdot _ _ h]
  unfold isUnderRoot
  exact List.isPrefixOf_iff_prefix.mpr (List.prefix_append _ _)

/-- C8 amended: the file backend stays under its root exactly for inputs
whose normalized form contains no `..` segment -- an absolute prefix is
re-rooted under the base -- but a leading `..` segment resolves outside the
root and is operated on there (the counterexample); the SQLite backend
treats paths as opaque table keys, storing and retrieving even `../x`
verbatim with no filesystem resolution. -/
theorem C8_root_containment_amended :
    (∀ (base : List String) (p : String),
      cleanAbs base = base →
      ¬ ".." ∈ splitSlash (normalizePath p) →
      isUnderRoot base (resolvePath base p) = true) ∧
    resolvePath ["home", "brain", "knowledge"] "/etc/passwd"
      = ["home", "brain", "knowledge", "etc", "passwd.md"] ∧
    isUnderRoot ["home", "brain", "knowledge"]
      (resolvePath ["home", "brain", "knowledge"] "/etc/passwd") = true ∧
    sqliteKRead (sqliteKWrite ⟨[]⟩ "p" "../x" "c") "p" "../x" = .ok "c" :=
  ⟨resolve_no_dotdot, by decide, by decide, by decide⟩

/-- C8 witness: root containment applied to a concrete dot-free path. -/
theorem C8_root_containment_amended_witness :
    cleanAbs ["home", "brain", "knowledge"] = ["home", "brain", "knowledge"] ∧
    ¬ ".." ∈ splitSlash (normalizePath "notes/todo") ∧
    isUnderRoot ["home", "brain", "knowledge"]
      (resolvePath ["home", "brain", "knowledge"] "notes/todo") = true :=
  ⟨by decide, by decide,
   C8_root_containment_amended.1 ["home", "brain", "knowledge"] "notes/todo"
     (by decide) (by decide)⟩

/-! ## C5: missing required parameter -/

/-- C5: at the action layer -- the path every instantiation request takes,
for either backend pairing -- instantiation fails with a
missing-required-parameter error and enqueues nothing whenever a required
parameter has no non-empty caller-supplied value and no declared default;
the failure happens before any substitution, so the task queue is returned
unchanged. -/
theorem C5_missing_required_parameter :
    ∀ (tdb : TplDB) (tfs : TplFS) (qdb : TaskDB) (q : TasksFile)
      (templateID sid : String) (params : List (String × String))
      (times : List Nat) (now : Nat) (t : TaskTemplate) (pname : String)
      (prm : Parameter),
      (pname, prm) ∈ t.paramsL →
      prm.required = true →
      (lookupA params pname).getD "" = "" →
      prm.dflt = "" →
      (sqliteGetTemplate tdb templateID = .ok t →
        (∃ m, (instantiateHandlerS tdb qdb templateID sid params times).1
            = .error (.missingRequired m)) ∧
        (instantiateHandlerS tdb qdb templateID sid params times).2 = qdb) ∧
      (fileGetTemplate tfs templateID = .ok t →
        (∃ m, (instantiateHandlerF tfs q templateID params now).1
            = .error (.missingRequired m)) ∧
        (instantiateHandlerF tfs q templateID params now).2 = q) := by
  intro tdb tfs qdb q templateID sid params times now t pname prm hmem hreq hempty _
  have hsome : (t.paramsL.find?
      (fun e => e.2.required && ((lookupA params e.1).getD "" = ""))).isSome = true := by
    rw [List.find?_isSome]
    exact ⟨(pname, prm), hmem, by simp [hreq, hempty]⟩
  obtain ⟨e, he⟩ := Option.isSome_iff_exists.mp hsome
  have hv : validateTemplateParameters t params = .error (.missingRequired e.1) := by
    unfold validateTemplateParameters
    rw [he]
  constructor
  · intro hget
    unfold instantiateHandlerS
    rw [hget]
    dsimp only
    rw [hv]
    exact ⟨⟨e.1, rfl⟩, rfl⟩
  · intro hget
    unfold instantiateHandlerF
    rw [hget]
    dsimp only
    rw [hv]
    exact ⟨⟨e.1, rfl⟩, rfl⟩

/-- C5 witness: the P6 template with required parameter `x` and an empty
caller map, against concrete stores for both backends. -/
theorem C5_missing_required_parameter_witness :
    ("x", ⟨"string", "", true, "", []⟩) ∈ tplScenario.paramsL ∧
    (lookupA ([] : List (String × String)) "x").getD "" = "" ∧
    ((sqliteGetTemplate ⟨[tplScenario]⟩ "tpl-1" = .ok tplScenario →
      (∃ m, (instantiateHandlerS ⟨[tplScenario]⟩ ⟨[], 1⟩ "tpl-1" "s" [] []).1
          = .error (.missingRequired m)) ∧
      (instantiateHandlerS ⟨[tplScenario]⟩ ⟨[], 1⟩ "tpl-1" "s" [] []).2 = ⟨[], 1⟩) ∧
     (fileGetTemplate ⟨[("tpl-1", tplScenario)]⟩ "tpl-1" = .ok tplScenario →
      (∃ m, (instantiateHandlerF ⟨[("tpl-1", tplScenario)]⟩ ⟨[], 1⟩ "tpl-1" [] 0).1
          = .error (.missingRequired m)) ∧
      (instantiateHandlerF ⟨[("tpl-1", tplScenario)]⟩ ⟨[], 1⟩ "tpl-1" [] 0).2 = ⟨[], 1⟩)) :=
  ⟨by decide, by decide,
   C5_missing_required_parameter ⟨[tplScenario]⟩ ⟨[("tpl-1", tplScenario)]⟩
     ⟨[], 1⟩ ⟨[], 1⟩ "tpl-1" "s" [] [] 0 tplScenario "x" ⟨"string", "", true, "", []⟩
     (by decide) (by decide) (by decide) (by decide)⟩

/-! ## C10: enum membership check lives in the action layer only -/

/-- A template with an optional enum parameter, for exercising the enum
check. -/
def tplEnum : TaskTemplate :=
  ⟨"tpl-2", "E", "d", "",
    some [("y", ⟨"enum", "", false, "", ["low", "high"]⟩)],
    some ["Set ${y}"], "", some [], 0, 0⟩

/-- C10: the action-layer handler rejects any instantiation that supplies a
value outside a declared enum's value set, before any task is enqueued (the
queue is returned unchanged); the repositories themselves perform no such
check -- both accept the out-of-enum value `purple` and even substitute it
into the produced tasks. -/
theorem C10_enum_check_action_layer_only :
    (∀ (tdb : TplDB) (qdb : TaskDB) (templateID sid : String)
      (params : List (String × String)) (times : List Nat)
      (t : TaskTemplate) (pname v : String) (prm : Parameter),
      sqliteGetTemplate tdb templateID = .ok t →
      (pname, v) ∈ params →
      lookupA t.paramsL pname = some prm →
      prm.type = "enum" →
      ¬ prm.values = [] →
      prm.values.contains v = false →
      (∃ e, (instantiateHandlerS tdb qdb templateID sid params times).1 = .error e) ∧
      (instantiateHandlerS tdb qdb templateID sid params times).2 = qdb) ∧
    fileInstantiateTemplate ⟨[("tpl-2", tplEnum)]⟩ "tpl-2" [("y", "purple")]
      = .ok ⟨"tpl-2", [("y", "purple")], ["Set purple"]⟩ ∧
    sqliteInstantiateTemplate ⟨[tplEnum]⟩ "tpl-2" [("y", "purple")]
      = .ok ⟨"tpl-2", [("y", "purple")], ["Set purple"]⟩ := by
  refine ⟨?_, by decide, by decide⟩
  intro tdb qdb templateID sid params times t pname v prm hget hmem hlook htype hvals hcont
  have hv : ∃ e, validateTemplateParameters t params = .error e := by
    unfold validateTemplateParameters
    cases hreq : t.paramsL.find?
        (fun e => e.2.required && ((lookupA params e.1).getD "" = "")) with
    | some e => exact ⟨.missingRequired e.1, rfl⟩
    | none =>
      have hsome : (params.find?
          (fun e =>
            match lookupA t.paramsL e.1 with
            | some prm => prm.type = "enum" && ¬ prm.values = [] && ¬ prm.values.contains e.2
            | none => false)).isSome = true := by
        rw [List.find?_isSome]
        refine ⟨(pname, v), hmem, ?_⟩
        simp only [hlook]
        simp only [htype, hvals]
        simpa using hcont
      obtain ⟨e, he⟩ := Option.isSome_iff_exists.mp hsome
      rw [he]
      exact ⟨.notInEnum e.1, rfl⟩
  obtain ⟨e, he⟩ := hv
  unfold instantiateHandlerS
  rw [hget]
  dsimp only
  rw [he]
  exact ⟨⟨e, rfl⟩, rfl⟩

/-- C10 witness: the enum rejection applied to a concrete store and the
out-of-enum value `purple`. -/
theorem C10_enum_check_action_layer_only_witness :
    sqliteGetTemplate ⟨[tplEnum]⟩ "tpl-2" = .ok tplEnum ∧
    ("y", "purple") ∈ [("y", "purple")] ∧
    lookupA tplEnum.paramsL "y" = some ⟨"enum", "", false, "", ["low", "high"]⟩ ∧
    ((∃ e, (instantiateHandlerS ⟨[tplEnum]⟩ ⟨[], 1⟩ "tpl-2" "s" [("y", "purple")] []).1
        = .error e) ∧
     (instantiateHandlerS ⟨[tplEnum]⟩ ⟨[], 1⟩ "tpl-2" "s" [("y", "purple")] []).2
        = ⟨[], 1⟩) :=
  ⟨by decide, by decide, by decide,
   C10_enum_check_action_layer_only.1 ⟨[tplEnum]⟩ ⟨[], 1⟩ "tpl-2" "s"
     [("y", "purple")] [] tplEnum "y" "purple" ⟨"enum", "", false, "", ["low", "high"]⟩
     (by decide) (by decide) (by decide) (by decide) (by decide) (by decide)⟩

/-! ## C7: update preserves identity and creation time -/

theorem filter_map_invariant {α : Type} (f : α → α) (q : α → Bool)
    (hq : ∀ x, q (f x) = q x) (hf : ∀ x, q x = true → f x = x) :
    ∀ l : List α, (l.map f).filter q = l.filter q := by
  intro l
  induction l with
  | nil => rfl
  | cons x xs ih =>
    rw [List.map_cons, List.filter_cons, List.filter_cons, hq x]
    cases hx : q x with
    | true => rw [if_pos rfl, if_pos rfl, hf x hx, ih]
    | false => rw [if_neg (by simp), if_neg (by simp), ih]

theorem lookupA_map_update (k : String) (v : TaskTemplate) :
    ∀ (l : List (String × TaskTemplate)) (e : String × TaskTemplate),
      l.find? (fun q => q.1 = k) = some e →
      lookupA (l.map (fun q => if q.1 = k then (k, v) else q)) k = some v := by
  intro l
  induction l with
  | nil => intro e h; simp [List.find?] at h
  | cons x xs ih =>
    intro e h
    rw [List.find?_cons] at h
    rw [List.map_cons]
    by_cases hx : x.1 = k
    · unfold lookupA
      rw [List.find?_cons]
      simp [hx]
    · have hxd : (decide (x.1 = k)) = false := by simp [hx]
      rw [hxd] at h
      have hih := ih e h
      unfold lookupA at hih ⊢
      rw [List.find?_cons]
      have hxf : (decide ((if x.1 = k then (k, v) else x).1 = k)) = false := by
        simp [hx]
      rw [hxf]
      exact hih

/-- C7: through the update handler -- the only caller of `UpdateTemplate` --
updating a template never changes its identity or its stored `CreatedAt`
(the handler copies the existing creation timestamp over whatever the caller
supplied, and the SQLite UPDATE additionally never touches the created_at
column), always sets `UpdatedAt` to the current instant, leaves every other
template untouched, and fails with NotFound (store unchanged) when the
identity does not exist.  Both backends. -/
theorem C7_update_preserves_identity :
    (∀ (db : TplDB) (tpl : TaskTemplate) (now : Nat),
      ¬ tpl.id = "" →
      (db.rows.find? (fun r => r.id = tpl.id) = none →
        (updateHandlerS db tpl now).1 = .error (.notFound tpl.id) ∧
        (updateHandlerS db tpl now).2 = db) ∧
      (∀ r0, db.rows.find? (fun r => r.id = tpl.id) = some r0 →
        validateTemplate { tpl with createdAt := r0.createdAt } = .ok () →
        (updateHandlerS db tpl now).1 = .ok () ∧
        (updateHandlerS db tpl now).2.rows.find? (fun r => r.id = tpl.id)
            = some { tpl with createdAt := r0.createdAt, updatedAt := now } ∧
        (updateHandlerS db tpl now).2.rows.filter (fun r => ¬ r.id = tpl.id)
            = db.rows.filter (fun r => ¬ r.id = tpl.id))) ∧
    (∀ (fs : TplFS) (tpl : TaskTemplate) (now : Nat),
      ¬ tpl.id = "" →
      (lookupA fs.files tpl.id = none →
        (updateHandlerF fs tpl now).1 = .error (.notFound tpl.id) ∧
        (updateHandlerF fs tpl now).2 = fs) ∧
      (∀ ex, lookupA fs.files tpl.id = some ex →
        validateTemplate { tpl with createdAt := ex.createdAt } = .ok () →
        (updateHandlerF fs tpl now).1 = .ok () ∧
        lookupA (updateHandlerF fs tpl now).2.files tpl.id
            = some { tpl with createdAt := ex.createdAt, updatedAt := now } ∧
        (updateHandlerF fs tpl now).2.files.filter (fun e => ¬ e.1 = tpl.id)
            = fs.files.filter (fun e => ¬ e.1 = tpl.id))) := by
  constructor
  · intro db tpl now hne
    constructor
    · intro hnone
      unfold updateHandlerS sqliteGetTemplate
      rw [if_neg hne, hnone]
      exact ⟨rfl, rfl⟩
    · intro r0 hfind hval
      have hid0 : r0.id = tpl.id := by
        have := List.find?_some hfind
        simpa using this
      have hany : db.rows.any
          (fun r => r.id = ({ tpl with createdAt := r0.createdAt } : TaskTemplate).id)
          = true := by
        rw [List.any_eq_true]
        exact ⟨r0, List.mem_of_find?_eq_some hfind, by simpa using hid0⟩
      unfold updateHandlerS sqliteGetTemplate
      rw [if_neg hne, hfind]
      dsimp only
      rw [hval]
      dsimp only
      unfold sqliteUpdateTemplate
      rw [if_pos hany]
      dsimp only
      refine ⟨rfl, ?_, ?_⟩
      · have hmap := find?_map_first
          (fun r : TaskTemplate =>
            if r.id = ({ tpl with createdAt := r0.createdAt } : TaskTemplate).id then
              { ({ tpl with createdAt := r0.createdAt } : TaskTemplate) with
                  id := r.id, createdAt := r.createdAt, updatedAt := now }
            else r)
          (fun r : TaskTemplate => decide (r.id = tpl.id))
          (fun r : TaskTemplate => decide (r.id = tpl.id))
          db.rows r0 hfind
          (by simp [hid0])
          (by
            intro x hx
            by_cases hxi : x.id = tpl.id
            · simp [hxi] at hx
            · simp [hxi])
        rw [hmap]
        simp [hid0]
      · apply filter_map_invariant
        · intro x
          by_cases hxi : x.id = tpl.id <;> simp [hxi]
        · intro x hx
          simp only [decide_eq_true_eq] at hx
          rw [if_neg (by simpa using hx)]
  · intro fs tpl now hne
    constructor
    · intro hnone
      have hg : fileGetTemplate fs tpl.id = .error (.notFound tpl.id) := by
        unfold fileGetTemplate
        rw [hnone]
      unfold updateHandlerF
      rw [if_neg hne, hg]
      exact ⟨rfl, rfl⟩
    · intro ex hex hval
      obtain ⟨e, hfind, hex2⟩ :
          ∃ e, fs.files.find? (fun q => q.1 = tpl.id) = some e ∧ e.2 = ex := by
        unfold lookupA at hex
        rcases hf0 : fs.files.find? (fun q => q.1 = tpl.id) with _ | e0
        · rw [hf0] at hex; simp at hex
        · rw [hf0] at hex
          exact ⟨e0, hf0, by simpa using hex⟩
      have hg : fileGetTemplate fs tpl.id = .ok ex := by
        unfold fileGetTemplate
        rw [hex]
      have hhas : hasKeyA fs.files
          ({ tpl with createdAt := ex.createdAt } : TaskTemplate).id = true := by
        unfold hasKeyA
        rw [show ({ tpl with createdAt := ex.createdAt } : TaskTemplate).id = tpl.id
          from rfl, hex]
        rfl
      unfold updateHandlerF
      rw [if_neg hne, hg]
      dsimp only
      rw [hval]
      dsimp only
      unfold fileUpdateTemplate
      rw [if_neg hne]
      simp only [hhas, if_true]
      refine ⟨trivial, ?_, ?_⟩
      · exact lookupA_map_update tpl.id
          { tpl with createdAt := ex.createdAt, updatedAt := now } fs.files e hfind
      · apply filter_map_invariant
        · intro x
          by_cases hxi : x.1 = tpl.id <;> simp [hxi]
        · intro x hx
          simp only [decide_eq_true_eq] at hx
          rw [if_neg (by simpa using hx)]

/-- C7 witness: a concrete one-template store updated through the handler in
both backends. -/
theorem C7_update_preserves_identity_witness :
    ¬ ("tpl-1" : String) = "" ∧
    (TplDB.mk [tplScenario]).rows.find?
      (fun r => r.id = ({ tplScenario with createdAt := 9 } : TaskTemplate).id)
      = some tplScenario ∧
    validateTemplate { ({ tplScenario with createdAt := 9 } : TaskTemplate) with
      createdAt := tplScenario.createdAt } = .ok () ∧
    ((updateHandlerS ⟨[tplScenario]⟩ { tplScenario with createdAt := 9 } 5).1
        = .ok () ∧
      (updateHandlerS ⟨[tplScenario]⟩ { tplScenario with createdAt := 9 } 5).2.rows.find?
        (fun r => r.id = ({ tplScenario with createdAt := 9 } : TaskTemplate).id)
        = some { ({ tplScenario with createdAt := 9 } : TaskTemplate) with
            createdAt := tplScenario.createdAt, updatedAt := 5 } ∧
      (updateHandlerS ⟨[tplScenario]⟩ { tplScenario with createdAt := 9 } 5).2.rows.filter
        (fun r => ¬ r.id = ({ tplScenario with createdAt := 9 } : TaskTemplate).id)
        = (TplDB.mk [tplScenario]).rows.filter
          (fun r => ¬ r.id = ({ tplScenario with createdAt := 9 } : TaskTemplate).id)) :=
  ⟨by decide, by decide, by decide,
   (C7_update_preserves_identity.1 ⟨[tplScenario]⟩
     { tplScenario with createdAt := 9 } 5 (by decide)).2 tplScenario
     (by decide) (by decide)⟩

/-! ## C9: CreateTemplate mutates its argument -/

/-- C9: `CreateTemplate` rewrites the caller's template in both backends:
an empty id is replaced by the generated one (lowercased name,
non-alphanumeric runs collapsed to a hyphen, timestamp suffix), both
timestamps are overwritten with the current instant regardless of the
caller's values, and the file backend additionally replaces nil collections
with empty ones while the SQLite backend leaves them untouched. -/
theorem C9_create_template_mutation :
    ∀ (fs : TplFS) (db : TplDB) (t : TaskTemplate) (now : Nat) (stamp : String),
      (fileCreateTemplate fs t now stamp).1.id
          = (if t.id = "" then generateFileTemplateID t.name stamp else t.id) ∧
      (fileCreateTemplate fs t now stamp).1.createdAt = now ∧
      (fileCreateTemplate fs t now stamp).1.updatedAt = now ∧
      (fileCreateTemplate fs t now stamp).1.parameters = some t.paramsL ∧
      (fileCreateTemplate fs t now stamp).1.tasks = some t.tasksL ∧
      (fileCreateTemplate fs t now stamp).1.prerequisites
          = some (t.prerequisites.getD []) ∧
      (sqliteCreateTemplate db t now stamp).1.id
          = (if t.id = "" then generateTemplateID t.name stamp else t.id) ∧
      (sqliteCreateTemplate db t now stamp).1.createdAt = now ∧
      (sqliteCreateTemplate db t now stamp).1.updatedAt = now ∧
      (sqliteCreateTemplate db t now stamp).1.parameters = t.parameters ∧
      (sqliteCreateTemplate db t now stamp).1.tasks = t.tasks ∧
      generateFileTemplateID "My Cool Template!" "20060102-150405"
          = "my-cool-template-20060102-150405" := by
  intro fs db t now stamp
  have hgen : generateFileTemplateID "My Cool Template!" "20060102-150405"
      = "my-cool-template-20060102-150405" := by decide
  by_cases h : t.id = "" <;>
    simp [fileCreateTemplate, sqliteCreateTemplate, TaskTemplate.paramsL,
      TaskTemplate.tasksL, h, hgen]

end McpBrain
